import Mathlib

/-!
Verification of the btcpool-go-modules stratumSwitcher / initUserCoin
natural-language specification against a shallow embedding of the Go
sources (`stratumSwitcher/StratumSession.go`, `initUserCoin/InitUserCoin.go`).

Machine integers (`uint32`) are modelled as `Nat` with explicit `% 2 ^ 32`
or `% 256` where the source truncates.  Go maps are modelled as association
lists, Go `interface{}` JSON values as the inductive `JSONValue`, and the
fallible / panicking paths of the source as `Option` / `Except`.
-/

namespace BtcPool

/-- Chain type of the manager (`manager.chainType` in the source). -/
inductive ChainType where
  | bitcoin
  | decredNormal
  | decredGoMiner
  | ethereum
deriving DecidableEq, Repr

/-- ProtocolType from StratumSession.go lines 58-71. -/
inductive ProtocolType where
  | bitcoinStratum
  | ethereumStratum
  | ethereumStratumNiceHash
  | ethereumProxy
  | unknown
deriving DecidableEq, Repr

/-- RunningStat from StratumSession.go lines 74-83. -/
inductive RunningStat where
  | running
  | stoped
  | reconnecting
deriving DecidableEq, Repr

/-- AuthorizeStat from StratumSession.go lines 86-95. -/
inductive AuthorizeStat where
  | connected
  | subscribed
  | authorized
deriving DecidableEq, Repr

/-- JSON values, modelling Go `interface{}` values decoded from JSON.
Objects are association lists (Go `map[string]interface{}`). -/
inductive JSONValue where
  | null
  | bool (b : Bool)
  | num (n : Nat)
  | str (s : String)
  | arr (xs : List JSONValue)
  | obj (fields : List (String × JSONValue))

/-- JSONRPCRequest: `{id, method, params, worker}` (the `worker` field is the
Ethereum-miner extension).  Params is the JSON array of parameters. -/
structure JSONRPCRequest where
  id : JSONValue
  method : String
  params : List JSONValue
  worker : String

/-- JSONRPCResponse: `{id, result, error}`; Go zero value has all fields nil. -/
structure JSONRPCResponse where
  id : JSONValue := .null
  result : JSONValue := .null
  error : JSONValue := .null

instance : Inhabited JSONRPCResponse := ⟨{}⟩

/-- Stratum errors surfaced to the client (StratumError values of the source). -/
inductive StratumError where
  | unknownChainType
  | tooFewParams
  | duplicateSubscribed
  | needSubscribed
  | workerNameMustBeString
  | workerNameStartWrong
deriving DecidableEq, Repr

/-- Terminal errors of the upstream handshake (plain `error` values in the
source).  `panicIndexOutOfRange` models a Go index-out-of-range panic. -/
inductive UpstreamError where
  | parseSubscribeResponseFailed
  | sessionIDInconformity
  | readLineFailed
  | authorizeFailedForServer
  | panicIndexOutOfRange
deriving DecidableEq, Repr

/-! ### Hex rendering helpers

`Uint32ToHex` / `Uint32ToHexLE` live in the repository's `Util.go`, which is
not part of the provided sources; they are modelled from the spec's wire
table ("sid as 8-char big-endian hex" / "sid as little-endian hex") and the
source comments ("reversed 4 bytes").  `%08x` rendering of a `uint32`
coincides with `Uint32ToHex`. -/

/-- Lowercase hex digit for a nibble value. -/
def hexDigit (n : Nat) : Char :=
  if n < 10 then Char.ofNat (48 + n) else Char.ofNat (87 + n)

/-- Two lowercase hex chars of one byte. -/
def byteHexChars (b : Nat) : List Char :=
  [hexDigit (b / 16 % 16), hexDigit (b % 16)]

/-- Char list of the 8-char big-endian hex rendering of a 32-bit value. -/
def uint32HexChars (n : Nat) : List Char :=
  byteHexChars (n / 2 ^ 24 % 256) ++ byteHexChars (n / 2 ^ 16 % 256) ++
    byteHexChars (n / 2 ^ 8 % 256) ++ byteHexChars (n % 256)

/-- Char list of the little-endian (byte-reversed) hex rendering. -/
def uint32HexLEChars (n : Nat) : List Char :=
  byteHexChars (n % 256) ++ byteHexChars (n / 2 ^ 8 % 256) ++
    byteHexChars (n / 2 ^ 16 % 256) ++ byteHexChars (n / 2 ^ 24 % 256)

/-- Modelled from the spec: `Uint32ToHex` of `Util.go` (missing from src/),
"sid as 8-char big-endian hex"; equals Go `fmt.Sprintf("%08x", n)` for a
`uint32`. -/
def Uint32ToHex (n : Nat) : String :=
  String.mk (uint32HexChars n)

/-- Modelled from the spec: `Uint32ToHexLE` of `Util.go` (missing from src/),
"sid as little-endian hex", source comment "reversed 4 bytes". -/
def Uint32ToHexLE (n : Nat) : String :=
  String.mk (uint32HexLEChars n)

/-- Go `strconv.ParseUint(s, 16, 32)` success value: `none` when the string is
empty, holds a non-hex character, or the value overflows 32 bits. -/
def parseUintHex32 (s : String) : Option Nat :=
  let digit (c : Char) : Option Nat :=
    if 48 ≤ c.toNat ∧ c.toNat ≤ 57 then some (c.toNat - 48)
    else if 97 ≤ c.toNat ∧ c.toNat ≤ 102 then some (c.toNat - 87)
    else if 65 ≤ c.toNat ∧ c.toNat ≤ 70 then some (c.toNat - 55)
    else none
  if s.toList.isEmpty then none
  else
    let v? := s.toList.foldl
      (fun acc c => match acc, digit c with
        | some a, some d => some (a * 16 + d)
        | _, _ => none) (some 0)
    match v? with
    | some v => if v < 2 ^ 32 then some v else none
    | none => none

/-- Session ID rendering of `NewStratumSession` (StratumSession.go 163-175):
the chain-specific `sessionIDString` computed once at session creation. -/
def computeSessionIDString (chain : ChainType) (sid : Nat) : String :=
  match chain with
  | .bitcoin => Uint32ToHex sid
  | .decredNormal => "0000000000000000" ++ Uint32ToHexLE sid
  | .decredGoMiner => Uint32ToHexLE sid
  | .ethereum => String.mk ((uint32HexChars sid).drop 2)

/-- Per-coin upstream server record (`StratumServerInfo`: url and user suffix). -/
structure StratumServerInfo where
  url : String
  userSuffix : String
deriving DecidableEq, Repr

/-- The mutable state of a `StratumSession`, together with the manager
configuration the handlers consult (`chainType`, the coin to server map and
the sub-account regularisation switch).  Network handles, readers and the
lock are not data and are left out; the lock discipline is captured by the
sequencing of the transition functions. -/
structure Session where
  chainType : ChainType
  protocolType : ProtocolType
  isBTCAgent : Bool := false
  isNiceHashClient : Bool := false
  jsonRPCVersion : Nat := 1
  versionMask : Nat := 0
  runningStat : RunningStat := .stoped
  reconnectCounter : Nat := 0
  sessionID : Nat
  sessionIDString : String
  fullWorkerName : String := ""
  subaccountName : String := ""
  minerNameWithDot : String := ""
  stratumSubscribeRequest : Option JSONRPCRequest := none
  stratumAuthorizeRequest : Option JSONRPCRequest := none
  miningCoin : String := ""
  stratumServerInfoMap : List (String × StratumServerInfo) := []
  stratumServerCaseInsensitive : Bool := true

/-- Go two-valued type assertion `s, _ := v.(string)`: yields the empty string
when the value is not a JSON string. -/
def JSONValue.goString : JSONValue → String
  | .str s => s
  | _ => ""

/-- Go `strings.ToLower` (character-wise lower-casing). -/
def toLowerStr (s : String) : String :=
  String.mk (s.toList.map Char.toLower)

/-- Go `strings.HasPrefix`. -/
def startsWithStr (s p : String) : Bool :=
  s.toList.take p.toList.length == p.toList

/-- Modelled from the spec: `FilterWorkerName` of `Util.go` (missing from
src/): "sanitising params[0] (drop non-printable and disallowed chars)".
We keep the printable non-space ASCII range; no claim depends on the exact
allowed set. -/
def FilterWorkerName (s : String) : String :=
  String.mk (s.toList.filter (fun c => 32 < c.toNat ∧ c.toNat < 127))

/-- Hex digit character (both cases), as accepted in a wallet address. -/
def isHexDigitChar (c : Char) : Bool :=
  (48 ≤ c.toNat && c.toNat ≤ 57) || (97 ≤ c.toNat && c.toNat ≤ 102) ||
    (65 ≤ c.toNat && c.toNat ≤ 70)

/-- Modelled from the spec: `StripEthAddrFromFullName` of `Util.go` (missing
from src/): "stripping any leading 0x-prefixed 40-hex-char wallet address
followed by `.`"; exactly 40 hex chars are required. -/
def StripEthAddrFromFullName (fullName : String) : String :=
  let cs := fullName.toList
  if 43 ≤ cs.length && cs.take 2 == ['0', 'x'] &&
      ((cs.drop 2).take 40).all isHexDigitChar && (cs.drop 42).take 1 == ['.'] then
    String.mk (cs.drop 43)
  else
    fullName

/-- Modelled from the spec: `manager.GetRegularSubaccountName` (manager code
missing from src/): "a configurable regularisation function (e.g.,
lower-casing)", keyed to the `StratumServerCaseInsensitive` configuration. -/
def GetRegularSubaccountName (caseInsensitive : Bool) (name : String) : String :=
  if caseInsensitive then toLowerStr name else name

/-- parseSubscribeRequest (StratumSession.go 416-485): caches the request,
detects BTCAgent / NiceHash / protocol variant and builds the reply result. -/
def parseSubscribeRequest (s : Session) (request : JSONRPCRequest) :
    Session × Option JSONValue × Option StratumError :=
  let s := { s with stratumSubscribeRequest := some request }
  match s.chainType with
  | .bitcoin | .decredNormal | .decredGoMiner =>
    let s :=
      match request.params.get? 0 with
      | some (.str userAgent) =>
        if startsWithStr (toLowerStr userAgent) "btccom-agent/" then { s with isBTCAgent := true } else s
      | _ => s
    let sid := s.sessionIDString
    (s, some (.arr [.arr [.arr [.str "mining.set_difficulty", .str sid],
                          .arr [.str "mining.notify", .str sid]], .str sid, .num 8]), none)
  | .ethereum =>
    let s := { s with protocolType := .ethereumStratum }
    let s : Session :=
      match request.params.get? 0 with
      | some (.str userAgent) =>
        let s := if startsWithStr (toLowerStr userAgent) "nicehash/" then
                   { s with isNiceHashClient := true } else s
        if startsWithStr (toLowerStr userAgent) "btccom-agent/" then
          { s with isBTCAgent := true, protocolType := .ethereumStratumNiceHash } else s
      | _ => s
    let s : Session :=
      match request.params.get? 1 with
      | some (.str protocol) =>
        if startsWithStr (toLowerStr protocol) "ethereumstratum/" then
          { s with protocolType := .ethereumStratumNiceHash } else s
      | _ => s
    if s.protocolType = .ethereumStratumNiceHash then
      let extraNonce := if s.isNiceHashClient then
                          String.mk (s.sessionIDString.toList.take 4)
                        else s.sessionIDString
      (s, some (.arr [.arr [.str "mining.notify", .str s.sessionIDString,
                            .str "EthereumStratum/1.0.0"], .str extraNonce]), none)
    else
      (s, some (.bool true), none)

/-- makeSubscribeMessageForEthProxy (StratumSession.go 487-493): synthesises a
subscribe request for the subscribe-less ETHProxy protocol. -/
def makeSubscribeMessageForEthProxy (s : Session) : Session :=
  let req : JSONRPCRequest :=
    { id := .null, method := "mining.subscribe",
      params := [.str "ETHProxy", .str "ETHProxy/1.0.0"], worker := "" }
  { s with stratumSubscribeRequest := some req }

/-- parseAuthorizeRequest (StratumSession.go 495-549): caches the request,
computes the full worker name, sub-account and miner suffix. -/
def parseAuthorizeRequest (s : Session) (request : JSONRPCRequest) :
    Session × Option JSONValue × Option StratumError :=
  let s := { s with stratumAuthorizeRequest := some request }
  if request.params.length < 1 then
    (s, none, some .tooFewParams)
  else
    match request.params.get? 0 with
    | some (.str rawName) =>
      let full := FilterWorkerName rawName
      let full :=
        if s.protocolType ≠ .bitcoinStratum then
          let full := if request.worker ≠ "" then
                        full ++ "." ++ FilterWorkerName request.worker else full
          StripEthAddrFromFullName full
        else full
      let cs := full.toList
      let (sub, minerDot) :=
        if cs.contains '.' then
          let pos := cs.findIdx (fun c => c = '.')
          (GetRegularSubaccountName s.stratumServerCaseInsensitive (String.mk (cs.take pos)),
           String.mk (cs.drop pos))
        else
          (GetRegularSubaccountName s.stratumServerCaseInsensitive full, "")
      let s := { s with subaccountName := sub, minerNameWithDot := minerDot,
                        fullWorkerName := sub ++ minerDot }
      if sub.length < 1 then
        (s, none, some .workerNameStartWrong)
      else
        (s, none, none)
    | _ => (s, none, some .workerNameMustBeString)

/-- The `version-rolling.mask` option value of a mining.configure request, as
read by parseConfigureRequest: `params[1]` must be an object whose
"version-rolling.mask" entry is a string parsing as 32-bit hex. -/
def maskFromRequest (request : JSONRPCRequest) : Option Nat :=
  match request.params.get? 1 with
  | some (.obj fields) =>
    match fields.lookup "version-rolling.mask" with
    | some (.str maskStr) => parseUintHex32 maskStr
    | _ => none
  | _ => none

/-- getVersionMaskStr (StratumSession.go 1605-1607): `%08x` of the mask. -/
def getVersionMaskStr (mask : Nat) : String := Uint32ToHex mask

/-- parseConfigureRequest (StratumSession.go 551-585). -/
def parseConfigureRequest (s : Session) (request : JSONRPCRequest) :
    Session × Option JSONValue × Option StratumError :=
  if request.params.length < 2 then
    (s, none, some .tooFewParams)
  else
    let s := match maskFromRequest request with
             | some v => { s with versionMask := v }
             | none => s
    if s.versionMask ≠ 0 then
      (s, some (.obj [("version-rolling", .bool true),
                      ("version-rolling.mask", .str (getVersionMaskStr s.versionMask))]), none)
    else
      (s, none, none)

/-- Outcome of stratumHandleRequest: updated session, reply result, reply
error and authorization state. -/
structure HandleResult where
  session : Session
  result : Option JSONValue
  error : Option StratumError
  stat : AuthorizeStat

/-- The shared mining.authorize tail of stratumHandleRequest (lines 608-617),
reached directly or by fallthrough from eth_submitLogin. -/
def authorizeStep (s : Session) (request : JSONRPCRequest) (stat : AuthorizeStat) :
    HandleResult :=
  if stat ≠ .subscribed then
    ⟨s, none, some .needSubscribed, stat⟩
  else
    let (s, result, err) := parseAuthorizeRequest s request
    ⟨s, result, err, if err = none then .authorized else stat⟩

/-- stratumHandleRequest (StratumSession.go 587-629): handshake dispatch. -/
def stratumHandleRequest (s : Session) (request : JSONRPCRequest) (stat : AuthorizeStat) :
    HandleResult :=
  match request.method with
  | "mining.subscribe" =>
    if stat ≠ .connected then
      ⟨s, none, some .duplicateSubscribed, stat⟩
    else
      let (s, result, err) := parseSubscribeRequest s request
      ⟨s, result, err, if err = none then .subscribed else stat⟩
  | "eth_submitLogin" =>
    if s.protocolType = .ethereumProxy then
      let s := { makeSubscribeMessageForEthProxy s with jsonRPCVersion := 2 }
      authorizeStep s request .subscribed
    else
      authorizeStep s request stat
  | "mining.authorize" =>
    authorizeStep s request stat
  | "mining.configure" =>
    if s.protocolType = .bitcoinStratum then
      let (s, result, err) := parseConfigureRequest s request
      ⟨s, result, err, stat⟩
    else
      ⟨s, none, none, stat⟩
  | _ => ⟨s, none, none, stat⟩

/-- Whether stratumFindWorkerName writes a reply for a handled request
(StratumSession.go 663: a reply is written iff result or error is present). -/
def writesReply (result : Option JSONValue) (err : Option StratumError) : Bool :=
  result.isSome || err.isSome

/-! ### Upstream handshake: send side -/

/-- Result of sendMiningSubscribeToServer: the session (whose cached subscribe
request the Go code mutates through the shared pointer), the request written
to the server, and the extracted userAgent / protocol strings. -/
structure SubscribeSendResult where
  session : Session
  sent : JSONRPCRequest
  userAgent : String
  protocol : String

/-- The user agent extracted from the cached subscribe request's params
(the Go `userAgent, _ = Params[0].(string)` guarded by a length check,
starting from the default "stratumSwitcher"). -/
def subscribeUserAgent (cached : JSONRPCRequest) : String :=
  match cached.params.get? 0 with
  | some v => v.goString
  | none => "stratumSwitcher"

/-- The protocol string extracted from the cached subscribe request's
params (default "Stratum"). -/
def subscribeProtocolParam (cached : JSONRPCRequest) : String :=
  match cached.params.get? 1 with
  | some v => v.goString
  | none => "Stratum"

/-- The cached subscribe request after the Bitcoin-protocol rewrite: id
"subscribe" and params `(userAgent, raw big-endian session hex, client IP)`
— NOT the chain-specific sessionIDString (StratumSession.go 861-863). -/
def rewriteSubscribeBTC (cached : JSONRPCRequest) (sid clientIPLong : Nat) :
    JSONRPCRequest :=
  { id := .str "subscribe", method := cached.method,
    params := [.str (subscribeUserAgent cached), .str (Uint32ToHex sid),
               .num clientIPLong],
    worker := cached.worker }

/-- The cached subscribe request after the Ethereum-variants rewrite: id
"subscribe" and params `(userAgent, protocol, sessionIDString, client IP)`. -/
def rewriteSubscribeEth (cached : JSONRPCRequest) (sessionIDString : String)
    (clientIPLong : Nat) : JSONRPCRequest :=
  { id := .str "subscribe", method := cached.method,
    params := [.str (subscribeUserAgent cached), .str (subscribeProtocolParam cached),
               .str sessionIDString, .num clientIPLong],
    worker := cached.worker }

/-- sendMiningSubscribeToServer (StratumSession.go 835-901).  The Go line
`request := session.stratumSubscribeRequest` copies a pointer, so
`request.ID = "subscribe"` and the later `SetParam` rewrite the cached
request in place; the request written to the wire is that same object.
The client IP uint32 is taken as a parameter (IP parsing is in the missing
`Util.go` and irrelevant to the claims).  `none` models the nil-pointer /
fatal paths (no cached request, unknown protocol). -/
def sendMiningSubscribeToServer (s : Session) (clientIPLong : Nat) :
    Option SubscribeSendResult :=
  match s.stratumSubscribeRequest with
  | none => none
  | some cached =>
    match s.protocolType with
    | .bitcoinStratum =>
      some ⟨{ s with stratumSubscribeRequest := some (rewriteSubscribeBTC cached s.sessionID clientIPLong) },
            rewriteSubscribeBTC cached s.sessionID clientIPLong,
            subscribeUserAgent cached, "Stratum"⟩
    | .ethereumStratum | .ethereumStratumNiceHash | .ethereumProxy =>
      some ⟨{ s with stratumSubscribeRequest := some (rewriteSubscribeEth cached s.sessionIDString clientIPLong) },
            rewriteSubscribeEth cached s.sessionIDString clientIPLong,
            subscribeUserAgent cached, subscribeProtocolParam cached⟩
    | .unknown => none

/-- getUserSuffix (StratumSession.go 904-911). -/
def getUserSuffix (s : Session) : String :=
  match s.stratumServerInfoMap.lookup s.miningCoin with
  | none => s.miningCoin
  | some info => info.userSuffix

/-- The worker name used for an upstream authorize: the plain full worker
name, or `subaccount_userSuffix` plus the miner suffix on retry. -/
def authWorkerNameOf (s : Session) (withSuffix : Bool) : String :=
  if withSuffix then s.subaccountName ++ "_" ++ getUserSuffix s ++ s.minerNameWithDot
  else s.fullWorkerName

/-- sendMiningAuthorizeToServer (StratumSession.go 914-940): builds a fresh
request (`var request JSONRPCRequest`) with a deep-copied parameter array,
`params[0]` replaced by the worker name (suffixed on retry) and id `"auth"`.
The session, in particular the cached authorize request, is returned
unchanged.  `none` models the Go panics (nil cached request, empty params). -/
def sendMiningAuthorizeToServer (s : Session) (withSuffix : Bool) :
    Option (Session × JSONRPCRequest) :=
  match s.stratumAuthorizeRequest with
  | none => none
  | some cached =>
    match cached.params with
    | [] => none
    | _ :: rest =>
      some (s, { id := .str "auth", method := cached.method,
                 params := .str (authWorkerNameOf s withSuffix) :: rest, worker := "" })

/-! ### Upstream handshake: receive side -/

/-- A line received from the server during the authorize phase, after the
dispatch of StratumSession.go 978-1013: `resp` for lines that decode as a
response with non-null id, `notif` for lines handled as notifications. -/
inductive ServerMessage where
  | resp (r : JSONRPCResponse)
  | notif (n : JSONRPCRequest)

/-- A message written to the client. -/
inductive ClientMessage where
  | response (r : JSONRPCResponse)
  | notify (n : JSONRPCRequest)

/-- stratumHandleServerNotify (StratumSession.go 1072-1085): a valid
mining.set_version_mask notification replaces the allowed mask. -/
def maskUpdateFromNotify (notify : JSONRPCRequest) (allowed : Nat) : Nat :=
  if notify.method = "mining.set_version_mask" then
    match notify.params.get? 0 with
    | some (.str maskStr) =>
      match parseUintHex32 maskStr with
      | some m => m
      | none => allowed
    | _ => allowed
  else allowed

/-- stratumHandleServerAuthorizeResponse (StratumSession.go 1117-1120). -/
def stratumHandleServerAuthorizeResponse (r : JSONRPCResponse) : Bool :=
  match r.result with
  | .bool b => b
  | _ => false

/-- stratumHandleServerSubscribeResponse (StratumSession.go 1123-1210):
validates the subscribe reply per protocol; `none` means accepted, any
error terminates the session.  The Go `notify[1]` access panics on a short
array, modelled as `panicIndexOutOfRange`. -/
def stratumHandleServerSubscribeResponse (s : Session) (r : JSONRPCResponse) :
    Option UpstreamError :=
  match s.protocolType with
  | .bitcoinStratum =>
    match r.result with
    | .arr result =>
      if result.length < 2 then some .parseSubscribeResponseFailed
      else
        match result.get? 1 with
        | some (.str sessionID) =>
          if sessionID ≠ s.sessionIDString then some .sessionIDInconformity else none
        | _ => some .parseSubscribeResponseFailed
    | _ => some .parseSubscribeResponseFailed
  | .ethereumStratumNiceHash =>
    match r.result with
    | .arr result =>
      if result.length < 2 then some .parseSubscribeResponseFailed
      else
        match result.get? 0 with
        | some (.arr notifyArr) =>
          match notifyArr.get? 1 with
          | some (.str sessionID) =>
            let sessionExtraNonce :=
              if s.isNiceHashClient then String.mk (s.sessionIDString.toList.take 4)
              else s.sessionIDString
            match result.get? 1 with
            | some (.str extraNonce) =>
              if sessionID ≠ s.sessionIDString then some .sessionIDInconformity
              else if extraNonce ≠ sessionExtraNonce then some .sessionIDInconformity
              else none
            | _ => some .parseSubscribeResponseFailed
          | some _ => some .parseSubscribeResponseFailed
          | none => some .panicIndexOutOfRange
        | _ => some .parseSubscribeResponseFailed
    | _ => some .parseSubscribeResponseFailed
  | .ethereumStratum | .ethereumProxy =>
    match r.result with
    | .bool true => none
    | _ => some .parseSubscribeResponseFailed
  | .unknown => some .parseSubscribeResponseFailed

/-- The three authorize-phase bookkeeping variables of the receive loop
(authMsgCounter, authSuccess, authResponse of StratumSession.go 963-966). -/
structure AuthProgress where
  authMsgCounter : Nat := 0
  authSuccess : Bool := false
  authResponse : JSONRPCResponse := {}

/-- stratumHandleServerResponse (StratumSession.go 1088-1114).  Note that an
auth reply updates `authResponse` whenever it succeeds or no success has
been seen yet, so a second failure overwrites the first failure's body. -/
def stratumHandleServerResponse (s : Session) (r : JSONRPCResponse) (p : AuthProgress) :
    Except UpstreamError AuthProgress :=
  match r.id with
  | .str id =>
    if id = "configure" then .ok p
    else if id = "subscribe" then
      match stratumHandleServerSubscribeResponse s r with
      | some e => .error e
      | none => .ok p
    else if id = "auth" then
      let counter := p.authMsgCounter + 1
      let success := stratumHandleServerAuthorizeResponse r
      let authResponse := if success || !p.authSuccess then r else p.authResponse
      if success then .ok ⟨2, true, authResponse⟩
      else .ok ⟨counter, p.authSuccess, authResponse⟩
    else .ok p
  | _ => .ok p

/-- Result of the authorize-phase receive loop. -/
structure AuthLoopResult where
  progress : AuthProgress
  allowedVersionMask : Nat
  consumed : List ServerMessage
  sentRetries : List JSONRPCRequest

/-- The receive loop of serverSubscribeAndAuthorize (StratumSession.go
969-1014): reads messages while fewer than two authorize replies have
arrived and none succeeded; after any response received while the first
authorize has failed and no success was seen, the suffixed retry authorize
is sent.  Running out of messages models a failed/blocked read. -/
def authLoop (s : Session) : List ServerMessage → AuthProgress → Nat →
    List ServerMessage → List JSONRPCRequest → Except UpstreamError AuthLoopResult
  | [], p, allowed, consumed, sent =>
    if p.authMsgCounter ≥ 2 then .ok ⟨p, allowed, consumed, sent⟩
    else .error .readLineFailed
  | .resp r :: rest, p, allowed, consumed, sent =>
    if p.authMsgCounter ≥ 2 then .ok ⟨p, allowed, consumed, sent⟩
    else
      match stratumHandleServerResponse s r p with
      | .error e => .error e
      | .ok p' =>
        if p'.authSuccess = false ∧ p'.authMsgCounter = 1 then
          match sendMiningAuthorizeToServer s true with
          | none => .error .panicIndexOutOfRange
          | some (_, retry) =>
            authLoop s rest p' allowed (consumed ++ [.resp r]) (sent ++ [retry])
        else
          authLoop s rest p' allowed (consumed ++ [.resp r]) sent
  | .notif n :: rest, p, allowed, consumed, sent =>
    if p.authMsgCounter ≥ 2 then .ok ⟨p, allowed, consumed, sent⟩
    else authLoop s rest p (maskUpdateFromNotify n allowed) (consumed ++ [.notif n]) sent

/-- Result of the whole upstream subscribe-and-authorize phase. -/
structure AuthorizePhaseResult where
  session : Session
  sentToServer : List JSONRPCRequest
  sentToClient : List ClientMessage
  err : Option UpstreamError

/-- serverSubscribeAndAuthorize (StratumSession.go 942-1069) over a given
list of server lines: sends configure (when a version mask was requested),
the rewritten subscribe and the unsuffixed authorize, runs the receive
loop, then writes the recorded authorize response (re-keyed to the client's
original request id) to the client, followed by one mining.set_version_mask
notification carrying `serverAllowed & clientMask` when the authorize
succeeded and the client had requested a nonzero mask. -/
def serverSubscribeAndAuthorize (s : Session) (clientIPLong : Nat)
    (msgs : List ServerMessage) : Option AuthorizePhaseResult :=
  let configureSent : List JSONRPCRequest :=
    if s.versionMask ≠ 0 then
      [{ id := .str "configure", method := "mining.configure",
         params := [.arr [.str "version-rolling"],
                    .obj [("version-rolling.mask", .str (getVersionMaskStr s.versionMask))]],
         worker := "" }]
    else []
  match sendMiningSubscribeToServer s clientIPLong with
  | none => none
  | some sub =>
    match sendMiningAuthorizeToServer sub.session false with
    | none => none
    | some (s, authReq) =>
      match s.stratumAuthorizeRequest with
      | none => none
      | some cachedAuth =>
        match authLoop s msgs {} 0 [] [] with
        | .error e => some ⟨s, configureSent ++ [sub.sent, authReq], [], some e⟩
        | .ok lr =>
          let authResponse := { lr.progress.authResponse with id := cachedAuth.id }
          let clientMsgs := [ClientMessage.response authResponse] ++
            (if lr.progress.authSuccess ∧ s.versionMask ≠ 0 then
              [ClientMessage.notify
                { id := .null, method := "mining.set_version_mask",
                  params := [.str (Uint32ToHex (lr.allowedVersionMask &&& s.versionMask))],
                  worker := "" }]
             else [])
          some ⟨s, configureSent ++ [sub.sent, authReq] ++ lr.sentRetries, clientMsgs,
                if lr.progress.authSuccess then none else some .authorizeFailedForServer⟩

/-! ### Stop / reconnect / coin-switch transitions

The three guarded transitions each take the caller's reconnect counter
(the fencing token recorded when the caller's task started).  `actionTaken`
records whether the guarded action (asynchronous `Stop()` for tryStop, the
reconnect via `reconnectStratumServer` for the other two) was initiated;
the reconnect itself is outside these functions in the source as well. -/
structure TransitionResult where
  session : Session
  actionTaken : Bool

/-- tryStop (StratumSession.go 1359-1377): under the lock, only when the
session is running and the counter is current, schedule `Stop()`. -/
def tryStop (s : Session) (currentReconnectCounter : Nat) : TransitionResult :=
  if s.runningStat ≠ .running then ⟨s, false⟩
  else if currentReconnectCounter = s.reconnectCounter then ⟨s, true⟩
  else ⟨s, false⟩

/-- tryReconnect (StratumSession.go 1380-1406): under the lock, only when
running with a current counter, set Reconnecting, bump the counter and
start the reconnect. -/
def tryReconnect (s : Session) (currentReconnectCounter : Nat) : TransitionResult :=
  if s.runningStat ≠ .running then ⟨s, false⟩
  else if currentReconnectCounter = s.reconnectCounter then
    ⟨{ s with runningStat := .reconnecting, reconnectCounter := s.reconnectCounter + 1 }, true⟩
  else ⟨s, false⟩

/-- switchCoinType (StratumSession.go 1408-1433): sets `miningCoin` to the
new coin BEFORE acquiring the lock and running the state / counter checks;
when the checks pass it sets Reconnecting, bumps the counter and starts the
reconnect. -/
def switchCoinType (s : Session) (newMiningCoin : String)
    (currentReconnectCounter : Nat) : TransitionResult :=
  let s := { s with miningCoin := newMiningCoin }
  if s.runningStat ≠ .running then ⟨s, false⟩
  else if currentReconnectCounter ≠ s.reconnectCounter then ⟨s, false⟩
  else ⟨{ s with runningStat := .reconnecting, reconnectCounter := s.reconnectCounter + 1 }, true⟩

/-! ### initUserCoin: seeder and setMiningCoin -/

/-- API errors of the initUserCoin module. -/
inductive APIError where
  | punameIsEmpty
  | punameInvalid
  | coinIsEmpty
  | coinIsInexistent
  | readRecordFailed
  | writeRecordFailed
  | recordExists
deriving DecidableEq, Repr

/-- The relevant initUserCoin configuration. -/
structure InitUserCoinConfig where
  userListAPI : List (String × String)
  stratumServerCaseInsensitive : Bool
  zkUserCaseInsensitiveIndex : String
  zkSwitcherWatchDir : String

/-- The ZooKeeper store as a path to value association list; `Create` on an
absent path prepends. -/
abbrev ZKStore := List (String × String)

/-- Whether a node exists (zookeeperConn.Exists on a healthy connection). -/
def zkExists (st : ZKStore) (path : String) : Bool :=
  (List.lookup path st).isSome

/-- The key name the seeder loop passes to setMiningCoin
(InitUserCoin.go 83-86): when the puname contains an underscore everything
from the LAST underscore on is removed, regardless of what follows it. -/
def seederKeyName (puname : String) : String :=
  let cs := puname.toList
  if '_' ∈ cs then
    String.mk (((cs.reverse.dropWhile (fun c => c ≠ '_')).drop 1).reverse)
  else puname

/-- The effective puname used for the switcher key (InitUserCoin.go
145-148: lower-cased exactly when the stratum server is case
insensitive). -/
def regularizedPuname (cfg : InitUserCoinConfig) (puname : String) : String :=
  if cfg.stratumServerCaseInsensitive then toLowerStr puname else puname

/-- The case-insensitive index step (InitUserCoin.go 149-164): when the
server is case sensitive and the index dir is configured, create the
lower-cased index node if absent; otherwise the store is untouched. -/
def indexStep (cfg : InitUserCoinConfig) (st : ZKStore) (puname : String) : ZKStore :=
  if cfg.stratumServerCaseInsensitive then st
  else if 0 < cfg.zkUserCaseInsensitiveIndex.length then
    let zkIndexPath := cfg.zkUserCaseInsensitiveIndex ++ toLowerStr puname
    if zkExists st zkIndexPath then st
    else (zkIndexPath, puname) :: st
  else st

/-- setMiningCoin (InitUserCoin.go 113-196) over the ZK store model: input
validation, coin existence in the configured user list API map, the
optional lower-casing / case-insensitive index node, then creation of the
switcher key unless it already exists. -/
def setMiningCoin (cfg : InitUserCoinConfig) (st : ZKStore) (puname coin : String) :
    Option APIError × ZKStore :=
  if puname.length < 1 then (some .punameIsEmpty, st)
  else if puname.toList.contains '/' then (some .punameInvalid, st)
  else if coin.length < 1 then (some .coinIsEmpty, st)
  else if ¬ cfg.userListAPI.any (fun kv => kv.1 = coin) then (some .coinIsInexistent, st)
  else
    let st := indexStep cfg st puname
    let zkPath := cfg.zkSwitcherWatchDir ++ regularizedPuname cfg puname
    if zkExists st zkPath then (some .recordExists, st)
    else (none, (zkPath, coin) :: st)

/-! ### Claim-side observation helpers -/

/-- JSON string projection. -/
def JSONValue.asString : JSONValue → Option String
  | .str s => some s
  | _ => none

/-- The identifier string the session emits in the upstream subscribe
request: parameter 1 for the Bitcoin protocol, parameter 2 for the
Ethereum variants (per sendMiningSubscribeToServer). -/
def emittedSessionIDString (s : Session) (clientIPLong : Nat) : Option String :=
  match sendMiningSubscribeToServer s clientIPLong with
  | none => none
  | some sub =>
    match s.protocolType with
    | .bitcoinStratum => (sub.sent.params.get? 1).bind JSONValue.asString
    | _ => (sub.sent.params.get? 2).bind JSONValue.asString

/-- The session identifier embedded in an upstream subscribe reply, at the
position the response handler checks: `result[1]` for the Bitcoin
protocol, `result[0][1]` for NiceHash Ethereum, absent otherwise. -/
def embeddedSubscribeSessionID (proto : ProtocolType) (r : JSONRPCResponse) :
    Option String :=
  match proto, r.result with
  | .bitcoinStratum, .arr result => (result.get? 1).bind JSONValue.asString
  | .ethereumStratumNiceHash, .arr result =>
    match result.get? 0 with
    | some (.arr notifyArr) => (notifyArr.get? 1).bind JSONValue.asString
    | _ => none
  | _, _ => none

/-- The server-allowed version mask accumulated over a list of server
messages as the receive loop does: each valid mining.set_version_mask
notification replaces the mask, starting from zero. -/
def serverAllowedFold (allowed : Nat) : List ServerMessage → Nat
  | [] => allowed
  | .notif n :: rest => serverAllowedFold (maskUpdateFromNotify n allowed) rest
  | .resp _ :: rest => serverAllowedFold allowed rest

/-- The server-allowed mask of a message list ("zero if none arrived"). -/
def serverAllowedMaskOf (msgs : List ServerMessage) : Nat :=
  serverAllowedFold 0 msgs

/-- The seeder key name as the claim words it: strip the `_<coin>` suffix
exactly when the puname ends in underscore followed by the seeded coin. -/
def specSeederKeyName (puname coin : String) : String :=
  let suf := ("_" ++ coin).toList
  let cs := puname.toList
  if cs.reverse.take suf.length = suf.reverse then
    String.mk (cs.take (cs.length - suf.length))
  else puname

/-- Big-endian byte decomposition of a 32-bit value. -/
def u32BytesBE (n : Nat) : List Nat :=
  [n / 2 ^ 24 % 256, n / 2 ^ 16 % 256, n / 2 ^ 8 % 256, n % 256]

/-- Hex string of a byte list. -/
def hexStringOfBytes (bs : List Nat) : String :=
  String.mk (bs.map byteHexChars).flatten

/-- The lowercase hex alphabet. -/
def lowercaseHexAlphabet : List Char := "0123456789abcdef".toList

/-- Id of the cached subscribe request, if any. -/
def cachedSubscribeId (s : Session) : Option JSONValue :=
  s.stratumSubscribeRequest.map JSONRPCRequest.id

/-- Params of the cached subscribe request, if any. -/
def cachedSubscribeParams (s : Session) : Option (List JSONValue) :=
  s.stratumSubscribeRequest.map JSONRPCRequest.params

/-- Session state after sendMiningSubscribeToServer, observed through the
cached subscribe request's id (Go mutates the cached request in place). -/
def cachedSubscribeIdAfterSend (s : Session) (clientIPLong : Nat) : Option JSONValue :=
  match sendMiningSubscribeToServer s clientIPLong with
  | some sub => cachedSubscribeId sub.session
  | none => none

/-- The messages written to the client by the authorize phase. -/
def phaseClientMessages (s : Session) (clientIPLong : Nat) (msgs : List ServerMessage) :
    Option (List ClientMessage) :=
  match serverSubscribeAndAuthorize s clientIPLong msgs with
  | some res => some res.sentToClient
  | none => none

/-- The terminal error of the authorize phase. -/
def phaseError (s : Session) (clientIPLong : Nat) (msgs : List ServerMessage) :
    Option UpstreamError :=
  match serverSubscribeAndAuthorize s clientIPLong msgs with
  | some res => res.err
  | none => none

/-- The requests written to the server by the authorize phase. -/
def phaseServerSent (s : Session) (clientIPLong : Nat) (msgs : List ServerMessage) :
    Option (List JSONRPCRequest) :=
  match serverSubscribeAndAuthorize s clientIPLong msgs with
  | some res => some res.sentToServer
  | none => none

/-- The extranonce slot of a NiceHash Ethereum subscribe reply
(`result[1]`, checked against the possibly truncated extranonce). -/
def embeddedSubscribeExtraNonce (r : JSONRPCResponse) : Option String :=
  match r.result with
  | .arr l => (l.get? 1).bind JSONValue.asString
  | _ => none

/-- The extranonce this session hands to the client: the sessionIDString,
truncated to its first four chars for a NiceHash client. -/
def expectedExtraNonce (s : Session) : String :=
  if s.isNiceHashClient then String.mk (s.sessionIDString.toList.take 4)
  else s.sessionIDString

/-! ### Concrete fixtures for counterexamples and witnesses -/

/-- A Bitcoin session right after the client handshake of the spec's
happy-path scenario (session ID 1, client masks requested). -/
def exSessionBtc : Session :=
  { chainType := .bitcoin, protocolType := .bitcoinStratum,
    sessionID := 1, sessionIDString := computeSessionIDString .bitcoin 1,
    versionMask := 0x1fffe000,
    fullWorkerName := "alice.rig1", subaccountName := "alice",
    minerNameWithDot := ".rig1",
    stratumSubscribeRequest := some ⟨.num 1, "mining.subscribe", [.str "cgminer/4.11"], ""⟩,
    stratumAuthorizeRequest := some ⟨.num 2, "mining.authorize", [.str "alice.rig1", .str "x"], ""⟩,
    miningCoin := "btc",
    stratumServerInfoMap := [("btc", ⟨"10.0.0.1:3333", "btc"⟩)] }

/-- A Decred-normal session with the same handshake data. -/
def exSessionDcr : Session :=
  { exSessionBtc with
    chainType := .decredNormal,
    sessionIDString := computeSessionIDString .decredNormal 1 }

/-- First upstream authorize failure reply. -/
def exFailA : JSONRPCResponse :=
  { id := .str "auth", result := .bool false, error := .str "failA" }

/-- Second upstream authorize failure reply, with a distinct body. -/
def exFailB : JSONRPCResponse :=
  { id := .str "auth", result := .bool false, error := .str "failB" }

/-- A successful upstream authorize reply. -/
def exAuthOk : JSONRPCResponse :=
  { id := .str "auth", result := .bool true, error := .null }

/-- An upstream subscribe reply that the Decred-normal session accepts:
`result[1]` carries the padded little-endian sessionIDString. -/
def exDcrSubscribeReply : JSONRPCResponse :=
  { id := .str "subscribe",
    result := .arr [.arr [], .str "000000000000000001000000"], error := .null }

/-- A server mining.set_version_mask notification. -/
def exMaskNotify : JSONRPCRequest :=
  ⟨.null, "mining.set_version_mask", [.str "1fffffff"], ""⟩

/-- A fresh Ethereum session (default ETHProxy protocol, state Connected). -/
def exSessionEth : Session :=
  { chainType := .ethereum, protocolType := .ethereumProxy,
    sessionID := 0x12345678,
    sessionIDString := computeSessionIDString .ethereum 0x12345678 }

/-- An eth_submitLogin request with a wallet address. -/
def exLoginReq : JSONRPCRequest :=
  ⟨.num 1, "eth_submitLogin",
   [.str "0x00d8c82Eb65124Ea3452CaC59B64aCC230AA3482.alice.rig1", .str "x"], ""⟩

/-- A plain mining.authorize request. -/
def exAuthorizeReq : JSONRPCRequest :=
  ⟨.num 2, "mining.authorize", [.str "alice.rig1", .str "x"], ""⟩

/-- A plain mining.subscribe request. -/
def exSubscribeReq : JSONRPCRequest :=
  ⟨.num 1, "mining.subscribe", [.str "cgminer/4.11"], ""⟩

/-- A mining.configure request with a well-formed nonzero mask. -/
def exConfigureReq : JSONRPCRequest :=
  ⟨.num 3, "mining.configure",
   [.arr [.str "version-rolling"], .obj [("version-rolling.mask", .str "1fffe000")]], ""⟩

/-- A mining.configure request whose mask option is missing. -/
def exConfigureReqNoMask : JSONRPCRequest :=
  ⟨.num 3, "mining.configure", [.arr [.str "version-rolling"], .obj []], ""⟩

/-- The Bitcoin session while running the proxy phase. -/
def exRunningSession : Session :=
  { exSessionBtc with runningStat := .running }

/-- The Bitcoin session with no version mask requested yet. -/
def exSessionBtc0 : Session :=
  { exSessionBtc with versionMask := 0 }

/-- A configure request with too few params. -/
def exConfigureReqShort : JSONRPCRequest :=
  ⟨.num 3, "mining.configure", [], ""⟩

/-- The initUserCoin configuration used in witnesses (case-sensitive server,
index dir enabled). -/
def exInitCfg : InitUserCoinConfig :=
  { userListAPI := [("btc", "http://user-list.example/btc")],
    stratumServerCaseInsensitive := false,
    zkUserCaseInsensitiveIndex := "/idx/",
    zkSwitcherWatchDir := "/switcher/" }

/-- Server messages of a successful authorize run: one version-mask
notification followed by the authorize success. -/
def exPhaseMsgs : List ServerMessage := [.notif exMaskNotify, .resp exAuthOk]

/-- The result of the successful authorize phase on the Bitcoin session. -/
def exPhaseSuccessRes : AuthorizePhaseResult :=
  match serverSubscribeAndAuthorize exSessionBtc 100 exPhaseMsgs with
  | some r => r
  | none => ⟨exSessionBtc, [], [], none⟩

/-- An upstream subscribe reply the Bitcoin session accepts. -/
def exBtcSubscribeReply : JSONRPCResponse :=
  { id := .str "subscribe", result := .arr [.arr [], .str "00000001"], error := .null }

/-! ## Theorems -/

/-! ### C6: sessionIDString rendering -/

/-- C6 counterexample: the claim states the Decred go-miner sessionIDString
is "sid as 4-char little-endian hex", but at sid = 0x12345678 the code
renders the byte-reversed 8-char string "78563412"; its length is 8, not
4, so no 4-char rendering matches. -/
theorem c6_gominer_counterexample :
    computeSessionIDString ChainType.decredGoMiner 305419896 = "78563412" ∧
      ("78563412" : String).length ≠ 4 := by
  constructor
  · decide
  · decide

/-- C6 (amended): for every session ID, the sessionIDString computed at
session creation is: Bitcoin — sid's 4 big-endian bytes in hex (8 chars);
Decred normal — 16 '0' characters followed by sid's bytes reversed in hex;
Decred go-miner — sid's bytes reversed in hex, which is 8 chars (4 bytes),
not 4 chars; Ethereum — the last 6 chars (24 bits) of the big-endian hex
rendering. -/
theorem c6_sessionIDString_rendering (sid : Nat) :
    computeSessionIDString .bitcoin sid = hexStringOfBytes (u32BytesBE sid) ∧
    (computeSessionIDString .bitcoin sid).length = 8 ∧
    computeSessionIDString .decredNormal sid =
      String.mk (List.replicate 16 '0') ++ hexStringOfBytes (u32BytesBE sid).reverse ∧
    computeSessionIDString .decredGoMiner sid =
      hexStringOfBytes (u32BytesBE sid).reverse ∧
    (computeSessionIDString .decredGoMiner sid).length = 8 ∧
    computeSessionIDString .ethereum sid =
      String.mk (((hexStringOfBytes (u32BytesBE sid)).toList.reverse.take 6).reverse) ∧
    (computeSessionIDString .ethereum sid).length = 6 := by
  have hlit : ("0000000000000000" : String) = String.mk (List.replicate 16 '0') := by decide
  refine ⟨?_, ?_, ?_, ?_, ?_, ?_, ?_⟩
  · apply String.ext
    simp [computeSessionIDString, hexStringOfBytes, u32BytesBE, Uint32ToHex, uint32HexChars]
  · simp [computeSessionIDString, Uint32ToHex, uint32HexChars, byteHexChars]
  · apply String.ext
    simp only [computeSessionIDString, String.data_append]
    congr 1
  · apply String.ext
    simp [computeSessionIDString, hexStringOfBytes, u32BytesBE, Uint32ToHexLE,
      uint32HexLEChars]
  · simp [computeSessionIDString, Uint32ToHexLE, uint32HexLEChars, byteHexChars]
  · apply String.ext
    simp [computeSessionIDString, hexStringOfBytes, u32BytesBE, uint32HexChars,
      byteHexChars, String.toList]
  · simp [computeSessionIDString, uint32HexChars, byteHexChars]

/-! ### C8: seeder key naming -/

/-- Chars before a separating underscore are all skipped by the dropWhile
of `seederKeyName` when none of them is an underscore. -/
theorem dropWhile_ne_underscore (l₁ l₂ : List Char) (h : '_' ∉ l₁) :
    (l₁ ++ '_' :: l₂).dropWhile (fun c => c ≠ '_') = '_' :: l₂ := by
  induction l₁ with
  | nil => simp [List.dropWhile]
  | cons c t ih =>
    simp only [List.mem_cons, not_or] at h
    have hc : c ≠ '_' := fun hc => h.1 hc.symm
    rw [List.cons_append, List.dropWhile_cons_of_pos (by simpa using hc), ih h.2]

/-- C8 counterexample: for puname "alice_bch" seeded under coin "btc", the
code creates the key under "alice" (stripping at the last underscore even
though the suffix is not the seeded coin), while the claim demands the
puname be used unchanged since it does not end in "_btc". -/
theorem c8_counterexample :
    seederKeyName "alice_bch" = "alice" ∧
      specSeederKeyName "alice_bch" "btc" = "alice_bch" ∧
      ("alice" : String) ≠ "alice_bch" :=
  ⟨by decide, by decide, by decide⟩

/-- C8 (amended): the seeder passes the puname to setMiningCoin stripped at
the LAST underscore whenever the puname contains an underscore, regardless
of whether what follows is the coin being seeded; a puname without an
underscore is used unchanged. -/
theorem c8_seeder_key_name :
    (∀ p : String, '_' ∉ p.toList → seederKeyName p = p) ∧
    (∀ a b : String, '_' ∉ b.toList → seederKeyName (a ++ "_" ++ b) = a) := by
  constructor
  · intro p h
    simp only [seederKeyName]
    rw [if_neg (by simpa [String.toList] using h)]
  · intro a b h
    have hdata : (a ++ "_" ++ b).toList = a.toList ++ '_' :: b.toList := by
      simp [String.toList, String.data_append]
    simp only [seederKeyName, hdata]
    have hmem : '_' ∈ a.toList ++ '_' :: b.toList := by simp
    rw [if_pos hmem]
    have hrev : (a.toList ++ '_' :: b.toList).reverse =
        b.toList.reverse ++ '_' :: a.toList.reverse := by
      simp
    rw [hrev, dropWhile_ne_underscore _ _ (by simpa using h)]
    simp [String.toList]

/-- C8 witness: the amended characterisation evaluated at "alice" (no
underscore, unchanged) and at "ali" ++ "_" ++ "ce" (stripped to "ali"). -/
theorem c8_witness :
    seederKeyName "alice" = "alice" ∧ seederKeyName ("ali" ++ "_" ++ "ce") = "ali" :=
  ⟨c8_seeder_key_name.1 "alice" (by decide),
   c8_seeder_key_name.2 "ali" "ce" (by decide)⟩

/-! ### C4: guarded stop / reconnect / coin-switch transitions -/

/-- C4 counterexample: switchCoinType on a stopped session fails its checks
and takes no action, yet the session's miningCoin has already been
overwritten — the call is not a no-op on the session, contradicting the
claim that no session state is mutated before the checks pass. -/
theorem c4_counterexample :
    (switchCoinType exSessionBtc "bch" 0).actionTaken = false ∧
      (switchCoinType exSessionBtc "bch" 0).session.miningCoin = "bch" ∧
      exSessionBtc.miningCoin = "btc" ∧ ("bch" : String) ≠ "btc" :=
  ⟨rfl, rfl, rfl, by decide⟩

/-- C4 (amended): tryStop and tryReconnect check, under the session lock,
that the state is Running and the caller's counter is current before doing
anything, and are no-ops on the session when the check fails; switchCoinType
runs the same checks but sets miningCoin to the new coin BEFORE them, so a
failed check still leaves miningCoin changed (all other state untouched). -/
theorem c4_guarded_transitions (s : Session) (newCoin : String) (k : Nat) :
    (s.runningStat ≠ .running ∨ k ≠ s.reconnectCounter →
      tryStop s k = ⟨s, false⟩) ∧
    (s.runningStat = .running → k = s.reconnectCounter →
      tryStop s k = ⟨s, true⟩) ∧
    (s.runningStat ≠ .running ∨ k ≠ s.reconnectCounter →
      tryReconnect s k = ⟨s, false⟩) ∧
    (s.runningStat = .running → k = s.reconnectCounter →
      tryReconnect s k =
        ⟨{ s with runningStat := .reconnecting,
                  reconnectCounter := s.reconnectCounter + 1 }, true⟩) ∧
    ((switchCoinType s newCoin k).session.miningCoin = newCoin) ∧
    (s.runningStat ≠ .running ∨ k ≠ s.reconnectCounter →
      switchCoinType s newCoin k = ⟨{ s with miningCoin := newCoin }, false⟩) ∧
    (s.runningStat = .running → k = s.reconnectCounter →
      switchCoinType s newCoin k =
        ⟨{ s with miningCoin := newCoin, runningStat := .reconnecting,
                  reconnectCounter := s.reconnectCounter + 1 }, true⟩) := by
  refine ⟨?_, ?_, ?_, ?_, ?_, ?_, ?_⟩
  · rintro (h | h)
    · simp [tryStop, h]
    · by_cases hr : s.runningStat = .running <;> simp [tryStop, hr, h]
  · intro hr hk
    simp [tryStop, hr, hk]
  · rintro (h | h)
    · simp [tryReconnect, h]
    · by_cases hr : s.runningStat = .running <;> simp [tryReconnect, hr, h]
  · intro hr hk
    simp [tryReconnect, hr, hk]
  · by_cases hr : s.runningStat = .running <;>
      by_cases hk : k = s.reconnectCounter <;> simp [switchCoinType, hr, hk]
  · rintro (h | h)
    · simp [switchCoinType, h]
    · by_cases hr : s.runningStat = .running <;> simp [switchCoinType, hr, h]
  · intro hr hk
    simp [switchCoinType, hr, hk]

/-- C4 witness: the guarded transitions evaluated on concrete stopped and
running sessions. -/
theorem c4_witness :
    tryStop exSessionBtc 0 = ⟨exSessionBtc, false⟩ ∧
      tryReconnect exRunningSession 0 =
        ⟨{ exRunningSession with runningStat := .reconnecting, reconnectCounter := 1 }, true⟩ ∧
      switchCoinType exRunningSession "bch" 0 =
        ⟨{ exRunningSession with
           miningCoin := "bch", runningStat := .reconnecting, reconnectCounter := 1 }, true⟩ :=
  ⟨(c4_guarded_transitions exSessionBtc "bch" 0).1 (Or.inl (by decide)),
   ((c4_guarded_transitions exRunningSession "bch" 0).2.2.2.1 rfl rfl),
   ((c4_guarded_transitions exRunningSession "bch" 0).2.2.2.2.2.2 rfl rfl)⟩

/-! ### C10: mining.configure handling -/

/-- C10: a Bitcoin-family mining.configure request with fewer than two
params gets the too-few-params error; otherwise, when the version-rolling
mask option is absent, not a string, unparseable or parses to zero and no
earlier request left a nonzero mask, the handler returns neither result
nor error, so no reply at all is written to the client. -/
theorem c10_configure_reply (s : Session) (request : JSONRPCRequest) :
    (request.params.length < 2 →
      parseConfigureRequest s request = (s, none, some .tooFewParams)) ∧
    (2 ≤ request.params.length → s.versionMask = 0 →
      maskFromRequest request = none ∨ maskFromRequest request = some 0 →
      parseConfigureRequest s request = (s, none, none) ∧
        writesReply none none = false) := by
  constructor
  · intro h
    simp [parseConfigureRequest, h]
  · intro h2 h0 hm
    have hlt : ¬ request.params.length < 2 := by omega
    have hs : ({ s with versionMask := 0 } : Session) = s := by rw [← h0]
    rcases hm with hm | hm
    · simp [parseConfigureRequest, hlt, hm, h0, writesReply]
    · simp [parseConfigureRequest, hlt, hm, hs, h0, writesReply]

/-- C10 witness: the configure handling evaluated on a maskless session,
with a short request and with a request lacking the mask option. -/
theorem c10_witness :
    parseConfigureRequest exSessionBtc0 exConfigureReqShort =
      (exSessionBtc0, none, some .tooFewParams) ∧
      parseConfigureRequest exSessionBtc0 exConfigureReqNoMask = (exSessionBtc0, none, none) :=
  ⟨(c10_configure_reply exSessionBtc0 exConfigureReqShort).1 (by decide),
   ((c10_configure_reply exSessionBtc0 exConfigureReqNoMask).2 (by decide) rfl (Or.inl rfl)).1⟩

/-! ### C7: handshake authorization state machine -/

/-- parseAuthorizeRequest never produces the need-subscribed error. -/
theorem parseAuthorizeRequest_no_needSubscribed (s : Session) (r : JSONRPCRequest) :
    (parseAuthorizeRequest s r).2.2 ≠ some .needSubscribed := by
  unfold parseAuthorizeRequest
  repeat' split
  all_goals simp [apply_ite Prod.snd, ite_eq_iff]

/-- A successful pass through the authorize tail ends in the Authorized
state, and a failed subscribed-state check leaves everything unchanged. -/
theorem authorizeStep_cases (s : Session) (r : JSONRPCRequest) (stat : AuthorizeStat) :
    (stat ≠ .subscribed → authorizeStep s r stat = ⟨s, none, some .needSubscribed, stat⟩) ∧
    ((authorizeStep s r stat).error = none → (authorizeStep s r stat).stat = .authorized) ∧
    ((authorizeStep s r stat).error ≠ some .needSubscribed ∨ stat ≠ .subscribed) := by
  refine ⟨?_, ?_, ?_⟩
  · intro h
    simp [authorizeStep, h]
  · by_cases h : stat = .subscribed
    · rcases hp : parseAuthorizeRequest s r with ⟨s1, result, err⟩
      simp only [authorizeStep, h, hp]
      intro he
      simp_all
    · simp [authorizeStep, h]
  · by_cases h : stat = .subscribed
    · left
      rcases hp : parseAuthorizeRequest s r with ⟨s1, result, err⟩
      have := parseAuthorizeRequest_no_needSubscribed s r
      rw [hp] at this
      simp only [authorizeStep, h, reduceIte, hp]
      simpa using this
    · right
      exact h

/-- C7: during the handshake, mining.subscribe outside Connected yields the
duplicate-subscribed error with no state or session change; mining.authorize
(and eth_submitLogin when the protocol is not EthereumProxy, which falls
through unmodified) outside Subscribed yields the need-subscribed error with
no state or session change; an eth_submitLogin on an EthereumProxy session
first moves the state to Subscribed, so it never yields need-subscribed; a
successful subscribe ends in Subscribed and a successful authorize (either
method) ends in Authorized. -/
theorem c7_handshake_state_machine (s : Session) (request : JSONRPCRequest)
    (stat : AuthorizeStat) :
    (request.method = "mining.subscribe" → stat ≠ .connected →
      stratumHandleRequest s request stat = ⟨s, none, some .duplicateSubscribed, stat⟩) ∧
    (request.method = "mining.authorize" → stat ≠ .subscribed →
      stratumHandleRequest s request stat = ⟨s, none, some .needSubscribed, stat⟩) ∧
    (request.method = "eth_submitLogin" → s.protocolType ≠ .ethereumProxy →
      stat ≠ .subscribed →
      stratumHandleRequest s request stat = ⟨s, none, some .needSubscribed, stat⟩) ∧
    (request.method = "eth_submitLogin" → s.protocolType = .ethereumProxy →
      (stratumHandleRequest s request stat).error ≠ some .needSubscribed) ∧
    (request.method = "mining.subscribe" → stat = .connected →
      (stratumHandleRequest s request stat).error = none →
      (stratumHandleRequest s request stat).stat = .subscribed) ∧
    ((request.method = "mining.authorize" ∨ request.method = "eth_submitLogin") →
      (stratumHandleRequest s request stat).error = none →
      (stratumHandleRequest s request stat).stat = .authorized) := by
  refine ⟨?_, ?_, ?_, ?_, ?_, ?_⟩
  · intro hm h
    simp [stratumHandleRequest, hm, h]
  · intro hm h
    simp only [stratumHandleRequest, hm]
    exact (authorizeStep_cases s request stat).1 h
  · intro hm hp h
    simp only [stratumHandleRequest, hm, hp, reduceIte, if_neg hp]
    exact (authorizeStep_cases s request stat).1 h
  · intro hm hp
    simp only [stratumHandleRequest, hm, hp, reduceIte]
    rcases (authorizeStep_cases
        { makeSubscribeMessageForEthProxy s with jsonRPCVersion := 2 } request
        .subscribed).2.2 with h | h
    · exact h
    · exact absurd rfl h
  · intro hm h
    rcases hp : parseSubscribeRequest s request with ⟨s1, result, err⟩
    simp only [stratumHandleRequest, hm, h, reduceIte, hp]
    intro he
    simp_all
  · intro hm
    rcases hm with hm | hm
    · simp only [stratumHandleRequest, hm]
      exact (authorizeStep_cases s request stat).2.1
    · simp only [stratumHandleRequest, hm]
      by_cases hp : s.protocolType = .ethereumProxy
      · simp only [hp, reduceIte]
        exact (authorizeStep_cases
          { makeSubscribeMessageForEthProxy s with jsonRPCVersion := 2 } request
          .subscribed).2.1
      · simp only [hp, reduceIte, if_neg hp]
        exact (authorizeStep_cases s request stat).2.1

/-- C7 witness: the state machine evaluated on concrete sessions — a
duplicate subscribe, an early authorize, an EthereumProxy login from
Connected (ends Authorized), and a successful subscribe from Connected. -/
theorem c7_witness :
    stratumHandleRequest exSessionBtc exSubscribeReq .authorized =
      ⟨exSessionBtc, none, some .duplicateSubscribed, .authorized⟩ ∧
      stratumHandleRequest exSessionBtc exAuthorizeReq .connected =
        ⟨exSessionBtc, none, some .needSubscribed, .connected⟩ ∧
      (stratumHandleRequest exSessionEth exLoginReq .connected).error ≠
        some .needSubscribed ∧
      (stratumHandleRequest exSessionBtc exSubscribeReq .connected).stat = .subscribed :=
  ⟨(c7_handshake_state_machine exSessionBtc exSubscribeReq .authorized).1 rfl (by decide),
   (c7_handshake_state_machine exSessionBtc exAuthorizeReq .connected).2.1 rfl (by decide),
   (c7_handshake_state_machine exSessionEth exLoginReq .connected).2.2.2.1 rfl rfl,
   (c7_handshake_state_machine exSessionBtc exSubscribeReq .connected).2.2.2.2.1 rfl rfl rfl⟩

/-! ### C9: setMiningCoin idempotence -/

/-- Existence in a store extended by one node. -/
theorem zkExists_cons (k v : String) (st : ZKStore) (path : String) :
    zkExists ((k, v) :: st) path = (path == k || zkExists st path) := by
  simp only [zkExists, List.lookup]
  cases h : path == k <;> simp [h]

/-- After the index step the index node for the puname exists whenever the
index branch is active. -/
theorem zkExists_indexStep_self (cfg : InitUserCoinConfig) (st : ZKStore) (p : String)
    (hci : cfg.stratumServerCaseInsensitive = false)
    (hlen : 0 < cfg.zkUserCaseInsensitiveIndex.length) :
    zkExists (indexStep cfg st p) (cfg.zkUserCaseInsensitiveIndex ++ toLowerStr p) = true := by
  unfold indexStep
  simp only [hci, Bool.false_eq_true, if_false, hlen, if_pos]
  split
  next hex => exact hex
  next => simp [zkExists_cons]

/-- C9: setMiningCoin is idempotent — when a first call succeeded (creating
the switcher key), re-invoking it with the same pair returns the
record-exists error and leaves the store, in particular the switcher key,
completely unchanged. -/
theorem c9_setMiningCoin_idempotent (cfg : InitUserCoinConfig) (st st₁ : ZKStore)
    (puname coin : String)
    (h : setMiningCoin cfg st puname coin = (none, st₁)) :
    setMiningCoin cfg st₁ puname coin = (some .recordExists, st₁) := by
  unfold setMiningCoin at h ⊢
  split at h
  next => simp at h
  next h1 =>
    split at h
    next => simp at h
    next h2 =>
      split at h
      next => simp at h
      next h3 =>
        split at h
        next => simp at h
        next h4 =>
          rw [if_neg h1, if_neg h2, if_neg h3, if_neg h4]
          have h' : (if zkExists (indexStep cfg st puname)
                (cfg.zkSwitcherWatchDir ++ regularizedPuname cfg puname) = true then
                (some APIError.recordExists, indexStep cfg st puname)
              else ((none : Option APIError),
                (cfg.zkSwitcherWatchDir ++ regularizedPuname cfg puname, coin) ::
                  indexStep cfg st puname)) = (none, st₁) := h
          show (if zkExists (indexStep cfg st₁ puname)
              (cfg.zkSwitcherWatchDir ++ regularizedPuname cfg puname) = true then
              (some APIError.recordExists, indexStep cfg st₁ puname)
            else ((none : Option APIError),
              (cfg.zkSwitcherWatchDir ++ regularizedPuname cfg puname, coin) ::
                indexStep cfg st₁ puname)) = (some APIError.recordExists, st₁)
          split at h'
          next => simp at h'
          next h5 =>
            have hst : st₁ =
                (cfg.zkSwitcherWatchDir ++ regularizedPuname cfg puname, coin) ::
                  indexStep cfg st puname := by
              have := congrArg Prod.snd h'
              simpa using this.symm
            have hidx : indexStep cfg st₁ puname = st₁ := by
              unfold indexStep
              by_cases hci : cfg.stratumServerCaseInsensitive
              · simp [hci]
              · simp only [hci, Bool.false_eq_true, if_false]
                by_cases hlen : 0 < cfg.zkUserCaseInsensitiveIndex.length
                · simp only [hlen, if_pos]
                  have hexi : zkExists st₁
                      (cfg.zkUserCaseInsensitiveIndex ++ toLowerStr puname) = true := by
                    rw [hst, zkExists_cons,
                      zkExists_indexStep_self cfg st puname (by simpa using hci) hlen]
                    simp
                  simp [hexi]
                · simp [hlen]
            rw [hidx]
            have hexists : zkExists st₁
                (cfg.zkSwitcherWatchDir ++ regularizedPuname cfg puname) = true := by
              rw [hst, zkExists_cons]
              simp
            rw [if_pos hexists]

/-- C9 witness: a successful creation for ("Alice", "btc") followed by a
second call, which reports record-exists and leaves the store unchanged. -/
theorem c9_witness :
    setMiningCoin exInitCfg [("/switcher/Alice", "btc"), ("/idx/alice", "Alice")]
      "Alice" "btc" =
      (some .recordExists, [("/switcher/Alice", "btc"), ("/idx/alice", "Alice")]) :=
  c9_setMiningCoin_idempotent exInitCfg [] _ "Alice" "btc" rfl

/-! ### Shared upstream-send lemmas -/

/-- A successful sendMiningSubscribeToServer leaves the session unchanged
except that its cached subscribe request now IS the (rewritten) request
written to the wire, whose id is "subscribe". -/
theorem sendMiningSubscribeToServer_session (s : Session) (ip : Nat)
    (sub : SubscribeSendResult) (h : sendMiningSubscribeToServer s ip = some sub) :
    sub.session = { s with stratumSubscribeRequest := some sub.sent } ∧
      sub.sent.id = .str "subscribe" := by
  unfold sendMiningSubscribeToServer at h
  split at h
  next => exact Option.noConfusion h
  next cached heq =>
    split at h
    all_goals first
      | exact Option.noConfusion h
      | (injection h with h; subst h; exact ⟨rfl, rfl⟩)

/-- A successful sendMiningAuthorizeToServer returns the session unchanged
together with a fresh request: id "auth", the cached method, and the cached
parameter list with only its head replaced by the chosen worker name. -/
theorem sendMiningAuthorizeToServer_spec (s : Session) (w : Bool)
    (out : Session × JSONRPCRequest) (h : sendMiningAuthorizeToServer s w = some out) :
    out.1 = s ∧
      ∃ cached p0 rest, s.stratumAuthorizeRequest = some cached ∧
        cached.params = p0 :: rest ∧
        out.2 = ⟨.str "auth", cached.method,
          .str (authWorkerNameOf s w) :: rest, ""⟩ := by
  unfold sendMiningAuthorizeToServer at h
  split at h
  next => exact Option.noConfusion h
  next cached heq =>
    split at h
    next => exact Option.noConfusion h
    next p0 rest hp =>
      injection h with h
      subst h
      exact ⟨rfl, cached, p0, rest, heq, hp, rfl⟩

/-! ### C3: cached handshake requests under upstream rewrite -/

/-- C3 counterexample: after the upstream subscribe send, the session's
cached subscribe request has id "subscribe" — not the id 1 the client sent
— because the Go rewrite mutates the cached request through a shared
pointer, so the cached request does not keep the client's id as the claim
states. -/
theorem c3_counterexample :
    cachedSubscribeIdAfterSend exSessionBtc 100 = some (.str "subscribe") ∧
      cachedSubscribeId exSessionBtc = some (.num 1) ∧
      JSONValue.str "subscribe" ≠ JSONValue.num 1 :=
  ⟨rfl, rfl, by simp⟩

/-- C3 (amended): the cached AUTHORIZE request is never mutated — the
upstream authorize send builds a fresh request (id "auth", deep-copied
params with only params[0] replaced) and returns the session unchanged; the
cached SUBSCRIBE request, however, is rewritten in place by the upstream
subscribe send: afterwards the cached request is exactly the request sent
to the server, with id "subscribe" and the rewritten parameter array, so
later replays start from the rewritten values, not the client's original
id and params. -/
theorem c3_cached_request_mutation :
    (∀ (s : Session) (w : Bool) (out : Session × JSONRPCRequest),
      sendMiningAuthorizeToServer s w = some out →
      out.1.stratumAuthorizeRequest = s.stratumAuthorizeRequest ∧
        out.2.id = .str "auth" ∧
        ∃ cached, s.stratumAuthorizeRequest = some cached ∧
          out.2.method = cached.method ∧ out.2.params.tail = cached.params.tail) ∧
    (∀ (s : Session) (ip : Nat) (sub : SubscribeSendResult),
      sendMiningSubscribeToServer s ip = some sub →
      sub.session.stratumSubscribeRequest = some sub.sent ∧
        sub.sent.id = .str "subscribe") := by
  constructor
  · intro s w out h
    obtain ⟨hsess, cached, p0, rest, hc, hp, hout⟩ := sendMiningAuthorizeToServer_spec s w out h
    refine ⟨by rw [hsess], by rw [hout], cached, hc, by rw [hout], ?_⟩
    rw [hout, hp]
    rfl
  · intro s ip sub h
    obtain ⟨hsess, hid⟩ := sendMiningSubscribeToServer_session s ip sub h
    exact ⟨by rw [hsess], hid⟩

/-- C3 witness: on the concrete Bitcoin session, the authorize send keeps
the cached authorize request intact while producing a fresh "auth" request,
and the subscribe send leaves the sent request in the cache. -/
theorem c3_witness :
    ((sendMiningAuthorizeToServer exSessionBtc false).getD
        (exSessionBtc, ⟨.null, "", [], ""⟩)).1.stratumAuthorizeRequest =
      exSessionBtc.stratumAuthorizeRequest ∧
      ((sendMiningSubscribeToServer exSessionBtc 100).getD
          ⟨exSessionBtc, ⟨.null, "", [], ""⟩, "", ""⟩).session.stratumSubscribeRequest =
        some ((sendMiningSubscribeToServer exSessionBtc 100).getD
          ⟨exSessionBtc, ⟨.null, "", [], ""⟩, "", ""⟩).sent :=
  ⟨(c3_cached_request_mutation.1 exSessionBtc false _ rfl).1,
   (c3_cached_request_mutation.2 exSessionBtc 100 _ rfl).1⟩

/-! ### C1: authorize retry bookkeeping -/

/-- Handling an "auth"-id failure response as the first reply records it and
bumps the counter to one. -/
theorem handleServerResponse_first_failure (s : Session) (r : JSONRPCResponse)
    (h : r.id = .str "auth") (f : stratumHandleServerAuthorizeResponse r = false) :
    stratumHandleServerResponse s r {} = .ok ⟨1, false, r⟩ := by
  unfold stratumHandleServerResponse
  simp [h, f]

/-- Handling an "auth"-id failure response as the second reply OVERWRITES the
recorded response (because no success has been seen) and ends the loop. -/
theorem handleServerResponse_second_failure (s : Session) (r1 r : JSONRPCResponse)
    (h : r.id = .str "auth") (f : stratumHandleServerAuthorizeResponse r = false) :
    stratumHandleServerResponse s r ⟨1, false, r1⟩ = .ok ⟨2, false, r⟩ := by
  unfold stratumHandleServerResponse
  simp [h, f]

/-- The receive loop on two authorize failures: the retry is sent after the
first failure, and the recorded response at the end is the SECOND failure. -/
theorem authLoop_two_failures (s : Session) (r1 r2 : JSONRPCResponse)
    (retryOut : Session × JSONRPCRequest)
    (h1 : r1.id = .str "auth") (h2 : r2.id = .str "auth")
    (f1 : stratumHandleServerAuthorizeResponse r1 = false)
    (f2 : stratumHandleServerAuthorizeResponse r2 = false)
    (hsend : sendMiningAuthorizeToServer s true = some retryOut) :
    authLoop s [.resp r1, .resp r2] {} 0 [] [] =
      .ok ⟨⟨2, false, r2⟩, 0, [.resp r1, .resp r2], [retryOut.2]⟩ := by
  rw [authLoop]
  simp only [handleServerResponse_first_failure s r1 h1 f1, hsend]
  rw [authLoop]
  simp only [handleServerResponse_second_failure s r1 r2 h2 f2]
  rw [authLoop]
  simp

/-- C1 counterexample: with two distinct upstream authorize failures, the
response body finally written to the client carries the SECOND failure's
body ("failB"), not the first failure's body as the claim states. -/
theorem c1_counterexample :
    phaseClientMessages exSessionBtc 100 [.resp exFailA, .resp exFailB] =
        some [.response ⟨.num 2, .bool false, .str "failB"⟩] ∧
      phaseError exSessionBtc 100 [.resp exFailA, .resp exFailB] =
        some .authorizeFailedForServer ∧
      JSONValue.str "failB" ≠ JSONValue.str "failA" :=
  ⟨rfl, rfl, by simp⟩

/-- C1 (amended): if the first (unsuffixed) upstream authorize fails, a
second authorize carrying the suffixed worker name is sent; if both fail,
the response body finally written to the client (with the client's original
request id) is the SECOND failure's response body — the last failure
overwrites the recorded reply — and the session stops with
authorize-failed. -/
theorem c1_second_failure_reported (s : Session) (ip : Nat)
    (sub : SubscribeSendResult) (areq : JSONRPCRequest) (p0 : JSONValue)
    (rest : List JSONValue) (r1 r2 : JSONRPCResponse)
    (hsub : sendMiningSubscribeToServer s ip = some sub)
    (hauth : s.stratumAuthorizeRequest = some areq)
    (hps : areq.params = p0 :: rest)
    (h1 : r1.id = .str "auth") (h2 : r2.id = .str "auth")
    (f1 : stratumHandleServerAuthorizeResponse r1 = false)
    (f2 : stratumHandleServerAuthorizeResponse r2 = false) :
    phaseClientMessages s ip [.resp r1, .resp r2] =
        some [.response ⟨areq.id, r2.result, r2.error⟩] ∧
      phaseError s ip [.resp r1, .resp r2] = some .authorizeFailedForServer ∧
      ∃ pre retry, phaseServerSent s ip [.resp r1, .resp r2] = some (pre ++ [retry]) ∧
        retry.id = .str "auth" ∧
        retry.params.head? =
          some (.str (s.subaccountName ++ "_" ++ getUserSuffix s ++ s.minerNameWithDot)) := by
  obtain ⟨hsess, hsubid⟩ := sendMiningSubscribeToServer_session s ip sub hsub
  have hauth' : sub.session.stratumAuthorizeRequest = some areq := by
    rw [hsess]; simpa using hauth
  have hsf : sendMiningAuthorizeToServer sub.session false =
      some (sub.session, ⟨.str "auth", areq.method,
        .str (authWorkerNameOf sub.session false) :: rest, ""⟩) := by
    simp only [sendMiningAuthorizeToServer, hauth', hps]
  have hst : sendMiningAuthorizeToServer sub.session true =
      some (sub.session, ⟨.str "auth", areq.method,
        .str (authWorkerNameOf sub.session true) :: rest, ""⟩) := by
    simp only [sendMiningAuthorizeToServer, hauth', hps]
  have hloop := authLoop_two_failures sub.session r1 r2 _ h1 h2 f1 f2 hst
  have hphase : serverSubscribeAndAuthorize s ip [.resp r1, .resp r2] =
      some ⟨sub.session,
        (if s.versionMask ≠ 0 then
          [⟨.str "configure", "mining.configure",
            [.arr [.str "version-rolling"],
             .obj [("version-rolling.mask", .str (getVersionMaskStr s.versionMask))]], ""⟩]
         else []) ++
          [sub.sent, ⟨.str "auth", areq.method,
            .str (authWorkerNameOf sub.session false) :: rest, ""⟩] ++
          [⟨.str "auth", areq.method, .str (authWorkerNameOf sub.session true) :: rest, ""⟩],
        [.response ⟨areq.id, r2.result, r2.error⟩], some .authorizeFailedForServer⟩ := by
    unfold serverSubscribeAndAuthorize
    rw [hsub]
    simp only [hsf, hauth', hloop]
    simp
  refine ⟨?_, ?_, ?_⟩
  · unfold phaseClientMessages
    rw [hphase]
  · unfold phaseError
    rw [hphase]
  · refine ⟨(if s.versionMask ≠ 0 then
        [⟨.str "configure", "mining.configure",
          [.arr [.str "version-rolling"],
           .obj [("version-rolling.mask", .str (getVersionMaskStr s.versionMask))]], ""⟩]
       else []) ++
        [sub.sent, ⟨.str "auth", areq.method,
          .str (authWorkerNameOf sub.session false) :: rest, ""⟩],
      ⟨.str "auth", areq.method,
        .str (authWorkerNameOf sub.session true) :: rest, ""⟩, ?_, rfl, ?_⟩
    · unfold phaseServerSent
      rw [hphase]
    · show some (JSONValue.str (authWorkerNameOf sub.session true)) =
        some (JSONValue.str (s.subaccountName ++ "_" ++ getUserSuffix s ++ s.minerNameWithDot))
      rw [hsess]
      rfl

/-- C1 witness: the amended behaviour on the concrete Bitcoin session with
two distinct failures — suffixed retry sent, second body reported. -/
theorem c1_witness :
    phaseClientMessages exSessionBtc 100 [.resp exFailA, .resp exFailB] =
        some [.response ⟨(.num 2 : JSONValue), exFailB.result, exFailB.error⟩] ∧
      phaseError exSessionBtc 100 [.resp exFailA, .resp exFailB] =
        some .authorizeFailedForServer ∧
      ∃ pre retry,
        phaseServerSent exSessionBtc 100 [.resp exFailA, .resp exFailB] =
            some (pre ++ [retry]) ∧
          retry.id = .str "auth" ∧
          retry.params.head? = some (.str ("alice" ++ "_" ++ "btc" ++ ".rig1")) :=
  c1_second_failure_reported exSessionBtc 100 _ _ _ _ exFailA exFailB
    rfl rfl rfl rfl rfl rfl rfl

/-! ### C5: version-mask intersection notification -/

/-- The allowed mask a finished receive loop reports is the fold of the
mask-update step over the consumed prefix of the message list. -/
theorem authLoop_allowed (s : Session) :
    ∀ (msgs : List ServerMessage) (p : AuthProgress) (a : Nat)
      (consumed : List ServerMessage) (sent : List JSONRPCRequest)
      (lr : AuthLoopResult),
      authLoop s msgs p a consumed sent = .ok lr →
      ∃ taken suffix, msgs = taken ++ suffix ∧
        lr.allowedVersionMask = serverAllowedFold a taken := by
  intro msgs
  induction msgs with
  | nil =>
    intro p a consumed sent lr h
    rw [authLoop] at h
    split at h
    · injection h with h
      subst h
      exact ⟨[], [], by simp, rfl⟩
    · exact Except.noConfusion h
  | cons m rest ih =>
    intro p a consumed sent lr h
    cases m with
    | resp r =>
      rw [authLoop] at h
      split at h
      · injection h with h
        subst h
        exact ⟨[], .resp r :: rest, by simp, rfl⟩
      · split at h
        next => exact Except.noConfusion h
        next p1 heq =>
          split at h
          · split at h
            next => exact Except.noConfusion h
            next out retry heq2 =>
              obtain ⟨taken, suffix, hts, hall⟩ := ih p1 a _ _ lr h
              exact ⟨.resp r :: taken, suffix, by simp [hts], by rw [hall]; rfl⟩
          · obtain ⟨taken, suffix, hts, hall⟩ := ih p1 a _ _ lr h
            exact ⟨.resp r :: taken, suffix, by simp [hts], by rw [hall]; rfl⟩
    | notif n =>
      rw [authLoop] at h
      split at h
      · injection h with h
        subst h
        exact ⟨[], .notif n :: rest, by simp, rfl⟩
      · obtain ⟨taken, suffix, hts, hall⟩ := ih p (maskUpdateFromNotify n a) _ _ lr h
        exact ⟨.notif n :: taken, suffix, by simp [hts], by rw [hall]; rfl⟩

/-- A nibble renders inside the lowercase hex alphabet. -/
theorem hexDigit_mem_alphabet (m : Nat) (h : m < 16) :
    hexDigit m ∈ lowercaseHexAlphabet := by
  interval_cases m <;> decide

/-- Both chars of a byte's hex rendering are lowercase hex. -/
theorem byteHexChars_mem (b : Nat) (c : Char) (h : c ∈ byteHexChars b) :
    c ∈ lowercaseHexAlphabet := by
  simp only [byteHexChars, List.mem_cons, List.not_mem_nil, or_false] at h
  rcases h with h | h <;>
    (subst h; exact hexDigit_mem_alphabet _ (Nat.mod_lt _ (by norm_num)))

/-- `%08x` renders exactly eight chars, all lowercase hex. -/
theorem Uint32ToHex_shape (n : Nat) :
    (Uint32ToHex n).length = 8 ∧
      ∀ c ∈ (Uint32ToHex n).toList, c ∈ lowercaseHexAlphabet := by
  constructor
  · simp [Uint32ToHex, uint32HexChars, byteHexChars]
  · intro c hc
    have hc' : c ∈ uint32HexChars n := hc
    unfold uint32HexChars at hc'
    rcases List.mem_append.mp hc' with h | h
    · rcases List.mem_append.mp h with h | h
      · rcases List.mem_append.mp h with h | h
        · exact byteHexChars_mem _ _ h
        · exact byteHexChars_mem _ _ h
      · exact byteHexChars_mem _ _ h
    · exact byteHexChars_mem _ _ h

/-- C5: after a successful upstream authorize on a session that requested a
nonzero version mask, the phase writes exactly one mining.set_version_mask
notification after the authorize reply; its mask is the AND of the
server-allowed mask accumulated over the consumed messages (zero if no
notification arrived) and the client-requested mask, rendered as 8
lowercase hex chars. -/
theorem c5_version_mask_notification (s : Session) (ip : Nat)
    (msgs : List ServerMessage) (res : AuthorizePhaseResult)
    (h : serverSubscribeAndAuthorize s ip msgs = some res)
    (hmask : s.versionMask ≠ 0) (hok : res.err = none) :
    ∃ (r : JSONRPCResponse) (consumed suffix : List ServerMessage),
      msgs = consumed ++ suffix ∧
      res.sentToClient = [.response r,
        .notify ⟨.null, "mining.set_version_mask",
          [.str (Uint32ToHex (serverAllowedMaskOf consumed &&& s.versionMask))], ""⟩] ∧
      (Uint32ToHex (serverAllowedMaskOf consumed &&& s.versionMask)).length = 8 ∧
      ∀ c ∈ (Uint32ToHex (serverAllowedMaskOf consumed &&& s.versionMask)).toList,
        c ∈ lowercaseHexAlphabet := by
  unfold serverSubscribeAndAuthorize at h
  cases hsub : sendMiningSubscribeToServer s ip with
  | none =>
    rw [hsub] at h
    simp only [] at h
    exact Option.noConfusion h
  | some sub =>
    rw [hsub] at h
    simp only [] at h
    obtain ⟨hsess, _⟩ := sendMiningSubscribeToServer_session s ip sub hsub
    cases hsa : sendMiningAuthorizeToServer sub.session false with
    | none =>
      rw [hsa] at h
      simp only [] at h
      exact Option.noConfusion h
    | some out =>
      rw [hsa] at h
      simp only [] at h
      cases hca : out.1.stratumAuthorizeRequest with
      | none =>
        rw [hca] at h
        simp only [] at h
        exact Option.noConfusion h
      | some cachedAuth =>
        rw [hca] at h
        simp only [] at h
        have hvm : out.1.versionMask = s.versionMask := by
          obtain ⟨hout1, _, _, _, _, _, _⟩ := sendMiningAuthorizeToServer_spec _ _ _ hsa
          rw [hout1, hsess]
        cases hloop : authLoop out.1 msgs {} 0 [] [] with
        | error e =>
          rw [hloop] at h
          injection h with h
          subst h
          simp at hok
        | ok lr =>
          rw [hloop] at h
          simp only [] at h
          injection h with h
          subst h
          simp only at hok
          cases hsuc : lr.progress.authSuccess with
          | false => rw [hsuc] at hok; simp at hok
          | true =>
            obtain ⟨taken, suffix, hts, hall⟩ :=
              authLoop_allowed out.1 msgs {} 0 [] [] lr hloop
            refine ⟨{ lr.progress.authResponse with id := cachedAuth.id },
              taken, suffix, hts, ?_, (Uint32ToHex_shape _).1, (Uint32ToHex_shape _).2⟩
            simp only [hsuc, hvm, hmask, hall]
            simp [serverAllowedMaskOf]
            exact hmask

/-- C5 witness: the phase on the concrete Bitcoin session (client mask
1fffe000) with a server mask notification 1fffffff followed by authorize
success — one set_version_mask notification with 1fffffff & 1fffe000. -/
theorem c5_witness :
    ∃ (r : JSONRPCResponse) (consumed suffix : List ServerMessage),
      exPhaseMsgs = consumed ++ suffix ∧
      exPhaseSuccessRes.sentToClient = [.response r,
        .notify ⟨.null, "mining.set_version_mask",
          [.str (Uint32ToHex (serverAllowedMaskOf consumed &&&
            exSessionBtc.versionMask))], ""⟩] ∧
      (Uint32ToHex (serverAllowedMaskOf consumed &&& exSessionBtc.versionMask)).length = 8 ∧
      ∀ c ∈ (Uint32ToHex (serverAllowedMaskOf consumed &&&
          exSessionBtc.versionMask)).toList,
        c ∈ lowercaseHexAlphabet :=
  c5_version_mask_notification exSessionBtc 100 exPhaseMsgs exPhaseSuccessRes
    rfl (by decide) rfl

/-! ### C2: emitted vs accepted session identifier -/

/-- C2 counterexample: on a Decred-normal session with session ID 1, the
upstream subscribe request carries "00000001" (raw big-endian hex), yet the
only replies the session accepts embed the 24-char padded little-endian
sessionIDString — the emitted and accepted-embedded identifiers differ, so
the claimed equality fails for the Decred chains. -/
theorem c2_counterexample :
    stratumHandleServerSubscribeResponse exSessionDcr exDcrSubscribeReply = none ∧
      emittedSessionIDString exSessionDcr 100 = some "00000001" ∧
      embeddedSubscribeSessionID ProtocolType.bitcoinStratum exDcrSubscribeReply =
        some "000000000000000001000000" ∧
      ("00000001" : String) ≠ "000000000000000001000000" :=
  ⟨rfl, rfl, rfl, by decide⟩

/-- C2 (amended): every accepted subscribe reply embeds exactly this
session's sessionIDString (Bitcoin protocol: result[1]; NiceHash Ethereum:
result[0][1], with result[1] equal to the possibly truncated extranonce;
any mismatch terminates the session).  The identifier emitted in the
upstream subscribe request equals the sessionIDString for the Ethereum
variants, but for the Bitcoin protocol it is the raw big-endian hex of the
session ID — which coincides with the sessionIDString on the Bitcoin chain
and provably differs from it on Decred-normal (the claim's "every chain"
fails there). -/
theorem c2_session_id_consistency (s : Session) (ip : Nat) (r : JSONRPCResponse) :
    (s.protocolType = .bitcoinStratum →
      stratumHandleServerSubscribeResponse s r = none →
      embeddedSubscribeSessionID s.protocolType r = some s.sessionIDString) ∧
    (s.protocolType = .ethereumStratumNiceHash →
      stratumHandleServerSubscribeResponse s r = none →
      embeddedSubscribeSessionID s.protocolType r = some s.sessionIDString ∧
        embeddedSubscribeExtraNonce r = some (expectedExtraNonce s)) ∧
    (s.protocolType = .bitcoinStratum → s.stratumSubscribeRequest.isSome →
      emittedSessionIDString s ip = some (Uint32ToHex s.sessionID)) ∧
    ((s.protocolType = .ethereumStratum ∨ s.protocolType = .ethereumStratumNiceHash ∨
        s.protocolType = .ethereumProxy) → s.stratumSubscribeRequest.isSome →
      emittedSessionIDString s ip = some s.sessionIDString) ∧
    (s.chainType = .bitcoin →
      computeSessionIDString s.chainType s.sessionID = Uint32ToHex s.sessionID) ∧
    (∀ sid : Nat, computeSessionIDString .decredNormal sid ≠ Uint32ToHex sid) := by
  refine ⟨?_, ?_, ?_, ?_, ?_, ?_⟩
  · intro hp hacc
    unfold stratumHandleServerSubscribeResponse at hacc
    rw [hp] at hacc
    simp only [] at hacc
    cases hres : r.result with
    | arr result =>
      rw [hres] at hacc
      simp only [] at hacc
      split at hacc
      · exact absurd hacc (by simp)
      · split at hacc
        next sessionID hget =>
          split at hacc
          next => exact absurd hacc (by simp)
          next hne =>
            have hsid : sessionID = s.sessionIDString := not_not.mp hne
            rw [List.get?_eq_getElem?] at hget
            simp [embeddedSubscribeSessionID, hp, hres, hget, JSONValue.asString, hsid]
        next => exact absurd hacc (by simp)
    | null => rw [hres] at hacc; simp only [] at hacc; exact absurd hacc (by simp)
    | bool b => rw [hres] at hacc; simp only [] at hacc; exact absurd hacc (by simp)
    | num n => rw [hres] at hacc; simp only [] at hacc; exact absurd hacc (by simp)
    | str a => rw [hres] at hacc; simp only [] at hacc; exact absurd hacc (by simp)
    | obj fields => rw [hres] at hacc; simp only [] at hacc; exact absurd hacc (by simp)
  · intro hp hacc
    unfold stratumHandleServerSubscribeResponse at hacc
    rw [hp] at hacc
    simp only [] at hacc
    cases hres : r.result with
    | arr result =>
      rw [hres] at hacc
      simp only [] at hacc
      split at hacc
      · exact absurd hacc (by simp)
      · split at hacc
        next notifyArr hget0 =>
          split at hacc
          next sessionID hget01 =>
            try simp only [] at hacc
            split at hacc
            next extraNonce hget1 =>
              split at hacc
              next => exact absurd hacc (by simp)
              next hne1 =>
                have hsid : sessionID = s.sessionIDString := not_not.mp hne1
                rw [List.get?_eq_getElem?] at hget0 hget01 hget1
                split at hacc
                next hz =>
                  split at hacc
                  next => exact absurd hacc (by simp)
                  next hne2 =>
                    have hen : extraNonce = expectedExtraNonce s := by
                      unfold expectedExtraNonce
                      rw [if_pos hz]
                      exact not_not.mp hne2
                    constructor
                    · simp [embeddedSubscribeSessionID, hp, hres, hget0, hget01,
                        JSONValue.asString, hsid]
                    · simp [embeddedSubscribeExtraNonce, hres, hget1,
                        JSONValue.asString, hen]
                next hz =>
                  split at hacc
                  next => exact absurd hacc (by simp)
                  next hne2 =>
                    have hen : extraNonce = expectedExtraNonce s := by
                      unfold expectedExtraNonce
                      rw [if_neg hz]
                      exact not_not.mp hne2
                    constructor
                    · simp [embeddedSubscribeSessionID, hp, hres, hget0, hget01,
                        JSONValue.asString, hsid]
                    · simp [embeddedSubscribeExtraNonce, hres, hget1,
                        JSONValue.asString, hen]
            next => exact absurd hacc (by simp)
          next => exact absurd hacc (by simp)
          next => exact absurd hacc (by simp)
        next => exact absurd hacc (by simp)
    | null => rw [hres] at hacc; simp only [] at hacc; exact absurd hacc (by simp)
    | bool b => rw [hres] at hacc; simp only [] at hacc; exact absurd hacc (by simp)
    | num n => rw [hres] at hacc; simp only [] at hacc; exact absurd hacc (by simp)
    | str a => rw [hres] at hacc; simp only [] at hacc; exact absurd hacc (by simp)
    | obj fields => rw [hres] at hacc; simp only [] at hacc; exact absurd hacc (by simp)
  · intro hp hsome
    cases hc : s.stratumSubscribeRequest with
    | none => rw [hc] at hsome; exact absurd hsome (by simp)
    | some cached =>
      simp [emittedSessionIDString, sendMiningSubscribeToServer, hc, hp,
        rewriteSubscribeBTC, JSONValue.asString]
  · intro hp hsome
    cases hc : s.stratumSubscribeRequest with
    | none => rw [hc] at hsome; exact absurd hsome (by simp)
    | some cached =>
      rcases hp with hp | hp | hp <;>
        simp [emittedSessionIDString, sendMiningSubscribeToServer, hc, hp,
          rewriteSubscribeEth, JSONValue.asString]
  · intro hchain
    rw [hchain]
    rfl
  · intro sid heq
    have hlen := congrArg String.length heq
    simp [computeSessionIDString, Uint32ToHex, Uint32ToHexLE, uint32HexChars,
      uint32HexLEChars, byteHexChars, String.length] at hlen

/-- C2 witness: on the Bitcoin session, the accepted reply's embedded
identifier equals the sessionIDString and the emitted identifier is the raw
big-endian hex, which coincides with it on the Bitcoin chain. -/
theorem c2_witness :
    embeddedSubscribeSessionID exSessionBtc.protocolType exBtcSubscribeReply =
        some exSessionBtc.sessionIDString ∧
      emittedSessionIDString exSessionBtc 100 = some (Uint32ToHex exSessionBtc.sessionID) ∧
      computeSessionIDString exSessionBtc.chainType exSessionBtc.sessionID =
        Uint32ToHex exSessionBtc.sessionID :=
  ⟨(c2_session_id_consistency exSessionBtc 100 exBtcSubscribeReply).1 rfl rfl,
   (c2_session_id_consistency exSessionBtc 100 exBtcSubscribeReply).2.2.1 rfl rfl,
   (c2_session_id_consistency exSessionBtc 100 exBtcSubscribeReply).2.2.2.2.1 rfl⟩

end BtcPool
